import Mathlib

/-!
Shallow embedding of the real-time audio plane of the voice bridge
(src/main.rs, src/discord.rs): the TS→Discord pull pipeline, the buffered
cross-side ring with its filler task, the TS audio event dispatch, the
Discord RTP receiver, and the per-tick Discord→TS encode path.

Bytes are modelled as `Nat`, f32 samples as `ℚ` (exact arithmetic for the
gain/clamp dataflow; no NaN/rounding is exercised by the code paths under
study).  A Rust panic is modelled as `Option.none` on functions that can
abort the process.
-/

namespace VoiceBridge

/-- Constant `TICK_TIME` from src/main.rs. -/
def TICK_TIME : Nat := 20

/-- Constant `STEREO_20MS = (SAMPLE_RATE * 2 * FRAME_SIZE_MS) / 1000` from src/main.rs. -/
def STEREO_20MS : Nat := (48000 * 2 * 20) / 1000

/-- Constant `MAX_OPUS_FRAME_SIZE` from src/main.rs. -/
def MAX_OPUS_FRAME_SIZE : Nat := 1275

/-- The ring capacity used in `BufferedPipeline::start_filler`: `48000 * 2 * 4`. -/
def RING_CAP : Nat := 48000 * 2 * 4

/-- The head-drop chunk used in `BufferedPipeline::start_filler`: `1920 * 4`. -/
def FRAME_BYTES : Nat := 1920 * 4

/-- The fixed gain `GAIN: f32 = 3.0` in `TsToDiscordPipeline::read`. -/
def GAIN : ℚ := 3

/-- Rust `f32::clamp(lo, hi)` on exact rationals:
`if self < min { min } else if self > max { max } else { self }`. -/
def rustClamp (x lo hi : ℚ) : ℚ :=
  if x < lo then lo else if hi < x then hi else x

/-- Embedding of `TsToDiscordPipeline::read` (src/main.rs lines 81-113).
`n` is `buf.len()`; `fill` models the samples that
`TsAudioHandler::fill_buffer` wrote into the zero-initialised
`audio_buffer` of length `n / 4` (padded/truncated to that length, since
`fill_buffer` mutates a buffer of exactly that size).  Each sample is
multiplied by `GAIN` and clamped to `[-1, 1]`; the resulting slice of
`4 * (n / 4)` bytes is `copy_from_slice`d into `buf`, which panics
(modelled as `none`) unless `4 * (n / 4) = n`.  On success the code
returns `Ok(buf.len())`; we return the processed samples together with
that count. -/
def tsRead (n : Nat) (fill : List ℚ) : Option (List ℚ × Nat) :=
  let samplesRequested := n / 4
  let audioBuffer := (fill ++ List.replicate samplesRequested 0).take samplesRequested
  let processed := audioBuffer.map (fun s => rustClamp (s * GAIN) (-1) 1)
  if 4 * samplesRequested = n then some (processed, n) else none

/-- Embedding of `<BufferedPipeline as Read>::read` (src/main.rs lines 168-184).
`ring` is the `VecDeque<u8>` contents (head first), `n` is `buf.len()`.
Returns the bytes made valid in `buf`, the returned count, and the ring
afterwards.  The code has no error path, mirrored by always `.ok`. -/
def bufferedRead (ring : List Nat) (n : Nat) :
    Except String (List Nat × Nat × List Nat) :=
  let available := min ring.length n
  if available = 0 then
    .ok (List.replicate n 0, n, ring)
  else
    .ok (ring.take available, available, ring.drop available)

/-- The `while buf_lock.len() > 48000 * 2 * 4 { buf_lock.drain(..1920 * 4); }`
loop of `BufferedPipeline::start_filler` (src/main.rs lines 159-161). -/
def drainLoop (q : List Nat) : List Nat :=
  if RING_CAP < q.length then drainLoop (q.drop FRAME_BYTES) else q
termination_by q.length
decreasing_by
  simp only [List.length_drop]
  have hcap : RING_CAP = 384000 := rfl
  have hfb : FRAME_BYTES = 7680 := rfl
  omega

/-- One iteration of the filler task body after the inner read
(src/main.rs lines 155-162): if the read returned `n > 0` bytes, extend
the ring with them and run the drain loop; otherwise leave the ring
unchanged.  `chunk` is `temp_buf[..n]`. -/
def fillerIteration (q chunk : List Nat) : List Nat :=
  if 0 < chunk.length then drainLoop (q ++ chunk) else q

/-- Type `tsproto_packets::packets::AudioData`, restricted to the fields the
bridge inspects: the sender for server-to-client variants, the opaque
payload otherwise. -/
inductive AudioData where
  | c2s (payload : List Nat)
  | c2sWhisper (payload : List Nat)
  | s2c (fromId : Nat) (payload : List Nat)
  | s2cWhisper (fromId : Nat) (payload : List Nat)

/-- The `match packet.data().data()` in the TS event loop
(src/main.rs lines 360-364): S2C-direction packets yield the sender,
anything else hits the `_ => ...` arm that aborts the process
(modelled as `none`). -/
def tsAudioFrom : AudioData → Option Nat
  | .s2c f _ => some f
  | .s2cWhisper f _ => some f
  | .c2s _ => none
  | .c2sWhisper _ => none

/-- A `StreamItem` from the TS connection, restricted to what the event
loop body distinguishes (src/main.rs lines 358-374). -/
inductive TsStreamItem where
  | audio (d : AudioData)
  | nonAudio

/-- One push into the TS audio handler: `(connection_id, from)` of the
`handle_packet` call. -/
structure TsPush where
  connId : Nat
  fromId : Nat
deriving DecidableEq, Repr

/-- The TS event loop body (src/main.rs lines 358-374): an audio item is
dispatched on its direction — S2C yields a `handle_packet` push (whose
`Err` is only debug-logged, then dropped); any other direction aborts the
process (`none`).  Non-audio items are ignored. -/
def handleTsEvent : TsStreamItem → Option (List TsPush)
  | .audio d =>
    match tsAudioFrom d with
    | some f => some [⟨0, f⟩]
    | none => none
  | .nonAudio => some []

/-- Result of the RTP demultiplexer: SSRC, sequence number and Opus
payload handed to `handle_packet`. -/
structure RtpParsed where
  ssrc : Nat
  seq : Nat
  payload : List Nat
deriving DecidableEq, Repr

/-- Big-endian `u16::from_be_bytes` on two byte values. -/
def u16be (hi lo : Nat) : Nat := hi * 256 + lo

/-- Big-endian `u32::from_be_bytes` on four byte values. -/
def u32be (b0 b1 b2 b3 : Nat) : Nat :=
  ((b0 * 256 + b1) * 256 + b2) * 256 + b3

/-- The payload offset computed in the `EventContext::RtpPacket` branch of
`Receiver::act` (src/discord.rs lines 472-480): 12, overridden to
`16 + 4 * ext_words` only when the extension bit is set AND the packet has
at least 16 bytes. -/
def rtpOffset (p : List Nat) : Nat :=
  let hasExtension := p.getD 0 0 &&& 16 ≠ 0
  if hasExtension ∧ 16 ≤ p.length then
    16 + 4 * u16be (p.getD 14 0) (p.getD 15 0)
  else 12

/-- The RTP parse of the `EventContext::RtpPacket` branch of
`Receiver::act` (src/discord.rs lines 447-497): packets shorter than 12
bytes are dropped; otherwise SSRC is `u32_be(bytes[8..12])`, sequence is
`u16_be(bytes[2..4])`, and the payload starts at `rtpOffset`; a packet
whose offset is not strictly below its length produces no push (`none`
here means only "no jitter-buffer push" — this code path cannot abort). -/
def rtpDemux (p : List Nat) : Option RtpParsed :=
  if p.length < 12 then none
  else
    let ssrc := u32be (p.getD 8 0) (p.getD 9 0) (p.getD 10 0) (p.getD 11 0)
    let seq := u16be (p.getD 2 0) (p.getD 3 0)
    let offset := rtpOffset p
    if offset < p.length then some ⟨ssrc, seq, p.drop offset⟩ else none

/-- Type `songbird::EventContext`, restricted to the variants `Receiver::act`
matches (src/discord.rs lines 442-520). -/
inductive EventContext where
  | speakingStateUpdate (ssrc : Nat) (userId : Option Nat)
  | rtpPacket (packet : List Nat)
  | voiceTick (speaking : List (Nat × Option (List Int)))
  | rtcpPacket (bytes : List Nat)
  | clientDisconnect (userId : Nat)
  | otherEvent

/-- What one `Receiver::act` call did: the `handle_packet(ssrc, seq,
payload)` pushes into the Discord audio handler (an `Err` from
`handle_packet` is printed and dropped), and the returned
`Option<Event>` (always `None` in the source). -/
structure ActResult where
  pushes : List RtpParsed
  returned : Option Unit
deriving DecidableEq, Repr

/-- Embedding of `Receiver::act` (src/discord.rs lines 441-522).  Only the
`RtpPacket` branch ever pushes audio; `VoiceTick` only prints sample
counts (its TODO explicitly leaves the handler unwired), and the
remaining branches print or do nothing. -/
def receiverAct : EventContext → ActResult
  | .rtpPacket p =>
    match rtpDemux p with
    | some r => ⟨[r], none⟩
    | none => ⟨[], none⟩
  | .speakingStateUpdate _ _ => ⟨[], none⟩
  | .voiceTick _ => ⟨[], none⟩
  | .rtcpPacket _ => ⟨[], none⟩
  | .clientDisconnect _ => ⟨[], none⟩
  | .otherEvent => ⟨[], none⟩

/-- Type `tsproto_packets::packets::CodecType`, restricted to the variant the
bridge emits. -/
inductive CodecType where
  | opusMusic
deriving DecidableEq, Repr

/-- The `AudioData::C2S` packet built by `process_discord_audio`
(src/main.rs lines 455-463). -/
structure OutPacket where
  id : Nat
  codec : CodecType
  data : List Nat
deriving DecidableEq, Repr

/-- Outcome of `encoder.try_lock()` on the shared Opus encoder. -/
inductive TryLockResult where
  | acquired
  | contended

/-- Embedding of `process_discord_audio` (src/main.rs lines 426-466).  `mixed` models
the frame `fill_buffer` wrote into `data`; `encode` abstracts
`Encoder::encode_float`, returning the encoded prefix `encoded[..length]`
on success.  `try_lock` failure hits its expect call:
the blocking task aborts and the `.await.expect(..)` aborts the main task
(modelled as the outer `none`).  An encode `Err` is logged and the closure
returns `None`: no packet for this tick (`some none`). -/
def processDiscordAudio (mixed : List ℚ) (lock : TryLockResult)
    (encode : List ℚ → Except String (List Nat)) : Option (Option OutPacket) :=
  match lock with
  | .contended => none
  | .acquired =>
    match encode mixed with
    | .error _ => some none
    | .ok encoded => some (some ⟨0, .opusMusic, encoded⟩)

/-- The `interval.tick()` arm of the main `select!` (src/main.rs lines
377-386): `con.send_audio` is called exactly when `process_discord_audio`
returned `Some`; afterwards the loop continues either way.  Returns the
packets sent on this tick. -/
def mainTickSend (processed : Option OutPacket) : List OutPacket :=
  match processed with
  | some p => [p]
  | none => []

/-- The demultiplexer as the amended C3 claim words it: packets shorter
than 12 bytes are dropped; the payload offset is 12 and the CSRC count is
ignored; when the extension bit (byte0 AND 0x10) is set and the length is
at least 16, the offset is instead `16 + 4 * ext_words` with
`ext_words = u16_be(bytes[14..16])`; when the extension bit is set but the
length is below 16 the offset stays 12; any packet whose offset is not
below its length is dropped with no push. -/
def rtpDemuxAmended (p : List Nat) : Option RtpParsed :=
  if p.length < 12 then none
  else
    let extBit := p.getD 0 0 &&& 16
    let offset :=
      if extBit = 0 then 12
      else if p.length < 16 then 12
      else 16 + 4 * u16be (p.getD 14 0) (p.getD 15 0)
    if p.length ≤ offset then none
    else
      some ⟨u32be (p.getD 8 0) (p.getD 9 0) (p.getD 10 0) (p.getD 11 0),
            u16be (p.getD 2 0) (p.getD 3 0), p.drop offset⟩

theorem drainLoop_eq (q : List Nat) :
    drainLoop q = if RING_CAP < q.length then drainLoop (q.drop FRAME_BYTES) else q := by
  rw [drainLoop]

theorem drainLoop_spec : ∀ n (q : List Nat), q.length = n →
    (drainLoop q).length ≤ RING_CAP ∧
    ∃ k, drainLoop q = q.drop (FRAME_BYTES * k) ∧
      ∀ j, j < k → RING_CAP < q.length - FRAME_BYTES * j := by
  intro n
  induction n using Nat.strong_induction_on with
  | _ n ih =>
    intro q hq
    rw [drainLoop_eq]
    by_cases hc : RING_CAP < q.length
    · rw [if_pos hc]
      have hcap : RING_CAP = 384000 := rfl
      have hfb : FRAME_BYTES = 7680 := rfl
      have hlt : (q.drop FRAME_BYTES).length < n := by
        rw [List.length_drop]; omega
      obtain ⟨hle, k, hk, hmin⟩ := ih _ hlt (q.drop FRAME_BYTES) rfl
      refine ⟨hle, k + 1, ?_, ?_⟩
      · rw [hk, List.drop_drop, Nat.mul_succ, Nat.add_comm]
      · intro j hj
        cases j with
        | zero => simpa using hc
        | succ i =>
          have h2 := hmin i (by omega)
          rw [List.length_drop] at h2
          have h3 : FRAME_BYTES * (i + 1) = FRAME_BYTES * i + FRAME_BYTES :=
            Nat.mul_succ _ _
          omega
    · rw [if_neg hc]
      refine ⟨by omega, 0, by simp, ?_⟩
      intro j hj
      omega

theorem rustClamp_range (x lo hi : ℚ) (h : lo ≤ hi) :
    lo ≤ rustClamp x lo hi ∧ rustClamp x lo hi ≤ hi := by
  unfold rustClamp
  by_cases h1 : x < lo
  · rw [if_pos h1]; exact ⟨le_refl lo, h⟩
  · rw [if_neg h1]
    by_cases h2 : hi < x
    · rw [if_pos h2]; exact ⟨h, le_refl hi⟩
    · rw [if_neg h2]; exact ⟨le_of_not_lt h1, le_of_not_lt h2⟩

theorem rtpDemux_none_of_short_or_empty (p : List Nat)
    (h : p.length < 12 ∨ p.length ≤ rtpOffset p) : rtpDemux p = none := by
  unfold rtpDemux
  by_cases h12 : p.length < 12
  · rw [if_pos h12]
  · rw [if_neg h12]
    have hle : p.length ≤ rtpOffset p := by
      cases h with
      | inl h => exact absurd h h12
      | inr h => exact h
    rw [if_neg (by omega)]

/-- C1: the claim says every `BufferedPipeline::read` call returns exactly
the requested number of bytes.  With one byte buffered and two requested,
the call returns `Ok(1)`: a short read of fewer than the requested 2
bytes. -/
theorem bufferedRead_short_read_cex :
    bufferedRead [7] 2 = .ok ([7], 1, []) ∧ (1 : Nat) ≠ 2 :=
  ⟨rfl, by decide⟩

/-- C1 (amended): `BufferedPipeline::read` never errors; when no bytes are
available it zero-fills and reports the full requested count `n`, and
otherwise it pops and reports `min(available, n)` bytes — which is a short
read whenever `0 < available < n`. -/
theorem bufferedRead_amended (ring : List Nat) (n : Nat) :
    (min ring.length n = 0 →
      bufferedRead ring n = .ok (List.replicate n 0, n, ring)) ∧
    (0 < min ring.length n →
      bufferedRead ring n =
        .ok (ring.take (min ring.length n), min ring.length n,
             ring.drop (min ring.length n))) := by
  unfold bufferedRead
  refine ⟨fun h => ?_, fun h => ?_⟩
  · rw [if_pos h]
  · rw [if_neg (by omega)]

theorem bufferedRead_amended_witness :
    bufferedRead [] 3 = .ok (List.replicate 3 0, 3, []) :=
  (bufferedRead_amended [] 3).1 (by decide)

/-- C2: the claim says a TS audio event whose payload direction is not
server-to-client is logged and dropped, never fatal.  The event loop body
instead hits the wildcard arm that aborts the process (modelled `none`)
on a client-to-server audio event. -/
theorem handleTsEvent_c2s_cex :
    handleTsEvent (.audio (.c2s [1, 2, 3])) = none := rfl

/-- C2 (amended): a TS audio event whose payload direction is not
server-to-client aborts the bridge process (the wildcard match arm); it is
not logged-and-dropped.  Server-to-client events are handled: their sender
is pushed to the TS audio handler and processing continues. -/
theorem handleTsEvent_amended :
    (∀ p, handleTsEvent (.audio (.c2s p)) = none) ∧
    (∀ p, handleTsEvent (.audio (.c2sWhisper p)) = none) ∧
    (∀ f p, handleTsEvent (.audio (.s2c f p)) = some [⟨0, f⟩]) ∧
    (∀ f p, handleTsEvent (.audio (.s2cWhisper f p)) = some [⟨0, f⟩]) :=
  ⟨fun _ => rfl, fun _ => rfl, fun _ _ => rfl, fun _ _ => rfl⟩

/-- C3: the claim says the payload offset is 12 plus 4 bytes per CSRC
entry, and that the extension bit with length below 16 is rejected.  A
20-byte packet with CSRC count 1 (byte0 = 0x81) is parsed with payload at
offset 12, not `12 + 4·cc = 16`; and a 13-byte packet with the extension
bit set (byte0 = 0x10) is pushed with offset 12 rather than rejected. -/
theorem rtpDemux_cex :
    rtpDemux [129, 0, 0, 5, 0, 0, 0, 0, 0, 0, 0, 9, 1, 2, 3, 4, 5, 6, 7, 8] =
      some ⟨9, 5, [1, 2, 3, 4, 5, 6, 7, 8]⟩ ∧
    List.drop (12 + 4 * (129 &&& 15))
        [129, 0, 0, 5, 0, 0, 0, 0, 0, 0, 0, 9, 1, 2, 3, 4, 5, 6, 7, 8] ≠
      [1, 2, 3, 4, 5, 6, 7, 8] ∧
    rtpDemux [16, 0, 0, 1, 0, 0, 0, 0, 0, 0, 0, 2, 7] = some ⟨2, 1, [7]⟩ := by
  refine ⟨rfl, by decide, rfl⟩

/-- C3 (amended): the demultiplexer drops packets shorter than 12 bytes;
the payload offset is 12 and ignores the CSRC count; when the extension
bit is set and the length is at least 16 the offset is
`16 + 4·ext_words`; when the extension bit is set but the length is below
16 the offset stays 12 (no rejection); any packet whose offset is not
below its length is dropped with no jitter-buffer push. -/
theorem rtpDemux_amended_spec (p : List Nat) : rtpDemux p = rtpDemuxAmended p := by
  simp only [rtpDemux, rtpDemuxAmended, rtpOffset]
  split_ifs <;> first | rfl | omega

/-- C4: the claim says a failed try-lock on the shared encoder only skips
the tick with a warning.  With the lock contended, the
`.expect("...")` on `try_lock` aborts the blocking task and the join
`.expect` aborts the event loop (modelled `none`), at a concrete silent
frame and a succeeding encoder. -/
theorem processDiscordAudio_contended_cex :
    processDiscordAudio (List.replicate STEREO_20MS 0) .contended
      (fun _ => .ok []) = none := rfl

/-- C4 (amended): on every tick whose try-lock of the shared Opus encoder
fails, the bridge process aborts (the expect on the try-lock, then the
join expect); the tick is not skipped and the bridge does not continue. -/
theorem processDiscordAudio_contended (mixed : List ℚ)
    (encode : List ℚ → Except String (List Nat)) :
    processDiscordAudio mixed .contended encode = none := rfl

/-- C5: `TsToDiscordPipeline::read` with a buffer length that is not a
multiple of 4 builds a byte slice of `4·(n/4) < n` bytes and
`copy_from_slice` aborts on the length mismatch (modelled `none`), for
every possible `fill_buffer` outcome; here evaluated at `n = 5`. -/
theorem tsRead_len5_aborts (fill : List ℚ) : tsRead 5 fill = none := rfl

/-- C6: on a tick where the Opus encoder returns an internal error,
`process_discord_audio` logs it and returns `None` without aborting: no
packet is produced, `send_audio` is not reached (nothing sent), and the
select loop proceeds to the next tick. -/
theorem encodeError_drops_frame (mixed : List ℚ)
    (encode : List ℚ → Except String (List Nat)) (e : String)
    (h : encode mixed = .error e) :
    processDiscordAudio mixed .acquired encode = some none ∧
    mainTickSend none = [] := by
  unfold processDiscordAudio
  rw [h]
  exact ⟨rfl, rfl⟩

theorem encodeError_drops_frame_witness :
    processDiscordAudio [] .acquired (fun _ => .error "internal") = some none ∧
    mainTickSend none = [] :=
  encodeError_drops_frame [] (fun _ => .error "internal") "internal" rfl

/-- C7: after every filler iteration that appends a nonempty chunk, the
ring holds at most `RING_CAP = 384000` bytes; the result is the appended
ring with some number `k` of `FRAME_BYTES = 7680`-byte chunks dropped from
the head, and every one of those `k` drops happened while the length still
exceeded the cap. -/
theorem fillerIteration_bounded (q chunk : List Nat) (h : chunk ≠ []) :
    RING_CAP = 384000 ∧ FRAME_BYTES = 7680 ∧
    (fillerIteration q chunk).length ≤ RING_CAP ∧
    ∃ k, fillerIteration q chunk = (q ++ chunk).drop (FRAME_BYTES * k) ∧
      ∀ j, j < k → RING_CAP < (q ++ chunk).length - FRAME_BYTES * j := by
  have hlen : 0 < chunk.length := List.length_pos.mpr h
  unfold fillerIteration
  rw [if_pos hlen]
  obtain ⟨hle, k, hk, hmin⟩ := drainLoop_spec (q ++ chunk).length (q ++ chunk) rfl
  exact ⟨rfl, rfl, hle, k, hk, hmin⟩

theorem fillerIteration_bounded_witness :
    RING_CAP = 384000 ∧ FRAME_BYTES = 7680 ∧
    (fillerIteration [] [0]).length ≤ RING_CAP ∧
    ∃ k, fillerIteration [] [0] = ([] ++ [0]).drop (FRAME_BYTES * k) ∧
      ∀ j, j < k → RING_CAP < ([] ++ [0]).length - FRAME_BYTES * j :=
  fillerIteration_bounded [] [0] (by decide)

/-- C8: only `RtpPacket` events ever push audio into the Discord-side
audio handler; a `VoiceTick` event never pushes (its branch only prints),
so each Discord voice source has exactly one ingest path. -/
theorem receiverAct_single_ingest :
    (∀ e, (receiverAct e).pushes ≠ [] → ∃ p, e = .rtpPacket p) ∧
    (∀ s, (receiverAct (.voiceTick s)).pushes = []) := by
  constructor
  · intro e h
    cases e with
    | rtpPacket p => exact ⟨p, rfl⟩
    | speakingStateUpdate a b => exact absurd rfl h
    | voiceTick s => exact absurd rfl h
    | rtcpPacket b => exact absurd rfl h
    | clientDisconnect u => exact absurd rfl h
    | otherEvent => exact absurd rfl h
  · intro s
    rfl

theorem receiverAct_single_ingest_witness :
    (receiverAct (.rtpPacket (List.replicate 13 0))).pushes ≠ [] ∧
    ∃ p, EventContext.rtpPacket (List.replicate 13 0) = .rtpPacket p :=
  ⟨by decide,
   receiverAct_single_ingest.1 (.rtpPacket (List.replicate 13 0)) (by decide)⟩

/-- C9: an RTP packet shorter than 12 bytes, or one whose extracted
payload would be empty (offset at or past the end, e.g. exactly 12 bytes
with no extension), causes no jitter-buffer push and no error: the
receiver returns `None` normally and processing continues. -/
theorem receiverAct_malformed_dropped (p : List Nat)
    (h : p.length < 12 ∨ List.drop (rtpOffset p) p = []) :
    receiverAct (.rtpPacket p) = ⟨[], none⟩ := by
  have hnone : rtpDemux p = none := by
    apply rtpDemux_none_of_short_or_empty
    cases h with
    | inl h => exact Or.inl h
    | inr h => exact Or.inr (List.drop_eq_nil_iff.mp h)
  simp only [receiverAct, hnone]

theorem receiverAct_malformed_dropped_witness :
    receiverAct (.rtpPacket (List.replicate 12 0)) = ⟨[], none⟩ :=
  receiverAct_malformed_dropped (List.replicate 12 0) (Or.inr (by decide))

/-- C10: every sample serialized by `TsToDiscordPipeline::read` lies in
`[-1, 1]`: each sample coming out of the TS audio handler is multiplied by
the fixed gain 3 and clamped to `[-1, 1]` before being written out, so a
successful read reports the requested byte count and only in-range
samples. -/
theorem tsRead_samples_in_range (n : Nat) (fill : List ℚ)
    (out : List ℚ × Nat) (h : tsRead n fill = some out) :
    out.2 = n ∧ GAIN = 3 ∧ ∀ s ∈ out.1, -1 ≤ s ∧ s ≤ 1 := by
  simp only [tsRead] at h
  split at h
  · rw [Option.some_inj] at h
    subst h
    refine ⟨rfl, rfl, ?_⟩
    intro s hs
    rw [List.mem_map] at hs
    obtain ⟨orig, _, horig⟩ := hs
    rw [← horig]
    exact rustClamp_range (orig * GAIN) (-1) 1 (by norm_num)
  · exact absurd h (by simp)

theorem tsRead_samples_in_range_witness :
    tsRead 4 [2] = some ([1], 4) ∧
    ((([(1 : ℚ)], 4) : List ℚ × Nat).2 = 4 ∧ GAIN = 3 ∧
      ∀ s ∈ (([(1 : ℚ)], 4) : List ℚ × Nat).1, -1 ≤ s ∧ s ≤ 1) :=
  ⟨by norm_num [tsRead, rustClamp, GAIN],
   tsRead_samples_in_range 4 [2] ([1], 4) (by norm_num [tsRead, rustClamp, GAIN])⟩

end VoiceBridge
